import Mathlib

/-
Shallow embedding of three subsystems of the fyne GUI toolkit excerpt:
  - theme color resolution        (src/theme/color.go)
  - two-column form layout        (src/layout/formlayout.go)
  - preferences persistence layer (src/app/preferences.go)
Machine floats (float32) are modelled by rationals; Go interface nil is
modelled by Option; Go panics (index out of range) are modelled by Option
results propagating none.
-/

namespace Fyne

namespace Theme

/-- fyne.ThemeVariant is an unsigned integer (VariantDark / VariantLight). -/
abbrev ThemeVariant := Nat

/-- image/color NRGBA value, the concrete color struct used by the tables. -/
structure NRGBA where
  r : Nat
  g : Nat
  b : Nat
  a : Nat
deriving DecidableEq, Repr

/-- A Go color.Color interface value: none models a nil interface. -/
abbrev GoColor := Option NRGBA

/-- The Color method of a fyne theme: the active theme implementation may
return nil (none) for a name it does not define. -/
abbrev GoTheme := String → ThemeVariant → GoColor

-- Primary color name constants from src/theme/color.go.
def ColorRed : String := "red"
def ColorOrange : String := "orange"
def ColorYellow : String := "yellow"
def ColorGreen : String := "green"
def ColorBlue : String := "blue"
def ColorPurple : String := "purple"
def ColorBrown : String := "brown"
def ColorGray : String := "gray"

def colorDarkBackground : NRGBA := ⟨0x17, 0x17, 0x18, 0xff⟩
def colorLightBackground : NRGBA := ⟨0xff, 0xff, 0xff, 0xff⟩

/-- Modelled from the spec: fallbackColor (referenced by safeColorLookup but
defined outside the excerpt) is a fixed default color; only its fixedness and
non-nilness matter to the claims, not its channel values. -/
def fallbackColor : NRGBA := ⟨0x80, 0x80, 0x80, 0xff⟩

/-- src/theme/color.go safeColorLookup: asks the active theme for the color
and substitutes the fixed fallback when the theme returns nil (the nil case
is also logged, which the pure model drops). -/
def safeColorLookup (th : GoTheme) (n : String) (v : ThemeVariant) : GoColor :=
  match th n v with
  | none => some fallbackColor
  | some col => some col

-- Public accessors going through safeColorLookup. The process-wide current
-- theme and variant singletons are passed explicitly.
def BackgroundColor (th : GoTheme) (v : ThemeVariant) : GoColor :=
  safeColorLookup th "background" v

def ButtonColor (th : GoTheme) (v : ThemeVariant) : GoColor :=
  safeColorLookup th "button" v

def Color (th : GoTheme) (name : String) (v : ThemeVariant) : GoColor :=
  safeColorLookup th name v

def DisabledButtonColor (th : GoTheme) (v : ThemeVariant) : GoColor :=
  safeColorLookup th "disabledButton" v

def DisabledColor (th : GoTheme) (v : ThemeVariant) : GoColor :=
  safeColorLookup th "disabled" v

def ErrorColor (th : GoTheme) (v : ThemeVariant) : GoColor :=
  safeColorLookup th "error" v

def FocusColor (th : GoTheme) (v : ThemeVariant) : GoColor :=
  safeColorLookup th "focus" v

def ForegroundColor (th : GoTheme) (v : ThemeVariant) : GoColor :=
  safeColorLookup th "foreground" v

def HoverColor (th : GoTheme) (v : ThemeVariant) : GoColor :=
  safeColorLookup th "hover" v

def HyperlinkColor (th : GoTheme) (v : ThemeVariant) : GoColor :=
  safeColorLookup th "hyperlink" v

def MenuBackgroundColor (th : GoTheme) (v : ThemeVariant) : GoColor :=
  safeColorLookup th "menuBackground" v

def OverlayBackgroundColor (th : GoTheme) (v : ThemeVariant) : GoColor :=
  safeColorLookup th "overlayBackground" v

def PlaceHolderColor (th : GoTheme) (v : ThemeVariant) : GoColor :=
  safeColorLookup th "placeholder" v

def PressedColor (th : GoTheme) (v : ThemeVariant) : GoColor :=
  safeColorLookup th "pressed" v

def PrimaryColor (th : GoTheme) (v : ThemeVariant) : GoColor :=
  safeColorLookup th "primary" v

def ScrollBarColor (th : GoTheme) (v : ThemeVariant) : GoColor :=
  safeColorLookup th "scrollBar" v

def SelectionColor (th : GoTheme) (v : ThemeVariant) : GoColor :=
  safeColorLookup th "selection" v

def SeparatorColor (th : GoTheme) (v : ThemeVariant) : GoColor :=
  safeColorLookup th "separator" v

def ShadowColor (th : GoTheme) (v : ThemeVariant) : GoColor :=
  safeColorLookup th "shadow" v

def SuccessColor (th : GoTheme) (v : ThemeVariant) : GoColor :=
  safeColorLookup th "success" v

def WarningColor (th : GoTheme) (v : ThemeVariant) : GoColor :=
  safeColorLookup th "warning" v

-- Accessors that call Current().Color directly, without safeColorLookup.
def HeaderBackgroundColor (th : GoTheme) (v : ThemeVariant) : GoColor :=
  th "headerBackground" v

def InputBackgroundColor (th : GoTheme) (v : ThemeVariant) : GoColor :=
  th "inputBackground" v

def InputBorderColor (th : GoTheme) (v : ThemeVariant) : GoColor :=
  th "inputBorder" v

/-- src/theme/color.go PrimaryColorNamed: a Go switch over the name, with the
ColorBlue value returned for every name not in the switch. -/
def PrimaryColorNamed (name : String) : NRGBA :=
  if name = ColorRed then ⟨0xf4, 0x43, 0x36, 0xff⟩
  else if name = ColorOrange then ⟨0xff, 0x98, 0x00, 0xff⟩
  else if name = ColorYellow then ⟨0xff, 0xeb, 0x3b, 0xff⟩
  else if name = ColorGreen then ⟨0x8b, 0xc3, 0x4a, 0xff⟩
  else if name = ColorPurple then ⟨0x9c, 0x27, 0xb0, 0xff⟩
  else if name = ColorBrown then ⟨0x79, 0x55, 0x48, 0xff⟩
  else if name = ColorGray then ⟨0x9e, 0x9e, 0x9e, 0xff⟩
  else ⟨0x29, 0x6f, 0xf6, 0xff⟩

/-- src/theme/color.go PrimaryForegroundColorNamed: the on-color switch, with
the ColorBlue on-value (colorLightBackground) for every other name. -/
def PrimaryForegroundColorNamed (name : String) : NRGBA :=
  if name = ColorRed then colorLightBackground
  else if name = ColorOrange then colorDarkBackground
  else if name = ColorYellow then colorDarkBackground
  else if name = ColorGreen then colorDarkBackground
  else if name = ColorPurple then colorLightBackground
  else if name = ColorBrown then colorLightBackground
  else if name = ColorGray then colorDarkBackground
  else colorLightBackground

end Theme

namespace FormLayout

/-- fyne.Size with float32 components modelled as rationals. -/
structure FSize where
  width : ℚ
  height : ℚ
deriving DecidableEq, Repr

/-- fyne.Position with float32 components modelled as rationals. -/
structure FPos where
  x : ℚ
  y : ℚ
deriving DecidableEq, Repr

/-- The parts of a fyne.CanvasObject that formlayout.go consults: its
visibility, whether it is a canvas.Text (the type switch), and MinSize. -/
structure FObj where
  visible : Bool
  isText : Bool
  minSize : FSize
deriving DecidableEq, Repr

/-- formLayoutCols in src/layout/formlayout.go. -/
def formLayoutCols : Nat := 2

/-- src/layout/formlayout.go countRows: walks the list two at a time and
counts the index pairs that are not both invisible. When the length is odd
and the final (unpaired) object is invisible, the Go code evaluates
objects with index i+1 = len(objects), an index out of range panic, which
the model renders as none. The Go conjunction short-circuits, so a visible
final object never touches the out-of-range index. -/
def countRows : List FObj → Option Nat
  | [] => some 0
  | [a] => if !a.visible then none else some 1
  | a :: b :: rest =>
      (countRows rest).map fun c =>
        if !a.visible && !b.visible then c else c + 1

/-- The accumulation loop inside tableCellsSize, as structural recursion over
the aligned pairs: yields the running label-column max width, content-column
max width, and the table of per-row (label cell, content cell) sizes for the
rows that are not both invisible. The Go loop runs only after the even-length
check, indexes pairs via lowBound/highBound slices, and stops after rows
visible rows; on an even list that visits exactly the aligned pairs, with
trailing all-invisible pairs contributing nothing either way. -/
def tableCellsLoop (innerPadding : ℚ) : List FObj → ℚ × ℚ × List (FSize × FSize)
  | [] => (0, 0, [])
  | [_] => (0, 0, [])
  | a :: b :: rest =>
      let acc := tableCellsLoop innerPadding rest
      if !a.visible && !b.visible then acc
      else
        let labelW := if a.isText then a.minSize.width + innerPadding * 2 else a.minSize.width
        let rowHeight := max a.minSize.height b.minSize.height
        (max labelW acc.1, max b.minSize.width acc.2.1,
          (⟨labelW, rowHeight⟩, ⟨b.minSize.width, rowHeight⟩) :: acc.2.2)

/-- src/layout/formlayout.go tableCellsSize: computes countRows first (so an
odd list whose last object is invisible panics, modelled as none), returns
the zero table for a list of odd length, and otherwise runs the cell loop
and floors the content column width by the remaining container width.
theme.Padding() and theme.InnerPadding() are passed explicitly. -/
def tableCellsSize (objects : List FObj) (containerWidth padding innerPadding : ℚ) :
    Option (ℚ × ℚ × List (FSize × FSize)) :=
  (countRows objects).map fun rows =>
    if objects.length % formLayoutCols ≠ 0 then
      (0, 0, List.replicate rows (⟨0, 0⟩, ⟨0, 0⟩))
    else
      let acc := tableCellsLoop innerPadding objects
      (acc.1, max acc.2.1 (containerWidth - acc.1 - padding), acc.2.2)

/-- The height loop of MinSize: sums the label-cell heights of the table
rows, inserting padding before every row except the first (the added flag). -/
def minHeightLoop (padding : ℚ) : List (FSize × FSize) → Bool → ℚ
  | [], _ => 0
  | e :: rest, added =>
      (if added then padding else 0) + e.1.height + minHeightLoop padding rest true

/-- src/layout/formlayout.go MinSize: zero for an empty table, otherwise
width = label column + content column + padding and height = sum of row
heights with padding between consecutive rows. -/
def MinSize (objects : List FObj) (padding innerPadding : ℚ) : Option FSize :=
  (tableCellsSize objects 0 padding innerPadding).map fun acc =>
    if acc.2.2 = [] then ⟨0, 0⟩
    else ⟨acc.1 + acc.2.1 + padding, minHeightLoop padding acc.2.2 false⟩

/-- Placement of a label cell at vertical offset y: a canvas.Text label is
inset by the inner padding and keeps its own MinSize height; any other
label spans the label column at the full row height. -/
def placeLabel (a : FObj) (labelWidth padding innerPadding y rowHeight : ℚ) :
    FPos × FSize :=
  if a.isText then
    (⟨innerPadding, y + innerPadding⟩,
      ⟨labelWidth - innerPadding * 2, a.minSize.height⟩)
  else (⟨0, y⟩, ⟨labelWidth, rowHeight⟩)

/-- Placement of a content cell at vertical offset y, right of the label
column; the row height used is the label cell height of the table row, as in
the Go code. -/
def placeContent (b : FObj) (labelWidth contentWidth padding innerPadding y rowHeight : ℚ) :
    FPos × FSize :=
  if b.isText then
    (⟨padding + labelWidth + innerPadding, y + innerPadding⟩,
      ⟨contentWidth - innerPadding * 2, b.minSize.height⟩)
  else (⟨padding + labelWidth, y⟩, ⟨contentWidth, rowHeight⟩)

/-- The positioning loop of Layout. The result list is parallel to the
object list: some (pos, size) for an object that the loop moves and resizes,
none for an object it leaves untouched. The loop reads table entries at the
running row index, modelled by consuming the table list head at each
processed row (a missing entry, the Go index panic, gives none). The Go
code advances y by the previous processed row height plus padding before
each later row; the recursion passes the advanced y forward after each
processed row, which agrees at every use. An unpaired final object is
processed (the skip test fails on it) without a content cell. -/
def layoutLoop (labelWidth contentWidth padding innerPadding : ℚ) :
    List FObj → List (FSize × FSize) → ℚ → Option (List (Option (FPos × FSize)))
  | [], _, _ => some []
  | [a], table, y =>
      match table with
      | [] => none
      | e :: _ =>
          some [some (placeLabel a labelWidth padding innerPadding y e.1.height)]
  | a :: b :: rest, table, y =>
      if !a.visible && !b.visible then
        (layoutLoop labelWidth contentWidth padding innerPadding rest table y).map
          fun r => none :: none :: r
      else
        match table with
        | [] => none
        | e :: tl =>
            (layoutLoop labelWidth contentWidth padding innerPadding rest tl
                (y + e.1.height + padding)).map
              fun r =>
                some (placeLabel a labelWidth padding innerPadding y e.1.height) ::
                some (placeContent b labelWidth contentWidth padding innerPadding y e.1.height) ::
                r

/-- src/layout/formlayout.go Layout: computes the cell table for the given
container width, then positions every row. -/
def Layout (objects : List FObj) (size : FSize) (padding innerPadding : ℚ) :
    Option (List (Option (FPos × FSize))) :=
  (tableCellsSize objects size.width padding innerPadding).bind fun acc =>
    layoutLoop acc.1 acc.2.1 padding innerPadding objects acc.2.2 0

end FormLayout

namespace Prefs

/-- A JSON value, the element type of the preferences key-value map
(string, number, bool, null, list, nested map). -/
inductive JVal where
  | jnull : JVal
  | jbool : Bool → JVal
  | jnum : ℚ → JVal
  | jstr : String → JVal
  | jarr : List JVal → JVal
  | jobj : List (String × JVal) → JVal

/-- The in-memory key-value map of InMemoryPreferences. -/
abbrev PrefMap := String → Option JVal

/-- What os.Open finds at a path: the file may be absent (an IsNotExist
error), unreadable (any other open error), or present holding the JSON
document last written. Following the spec, the persisted document is the
full flattened key-value map. -/
inductive FileEntry where
  | absent : FileEntry
  | unreadable : FileEntry
  | present : PrefMap → FileEntry

/-- The kinds of open failure loadFromFile distinguishes via os.IsNotExist. -/
inductive OpenErr where
  | notExist : OpenErr
  | permission : OpenErr
deriving DecidableEq, Repr

/-- The file system as the preferences code observes it: file entries by
path, the set of directories created with os.MkdirAll, and a counter of
file write operations (each successful saveToFile performs one
create-encode-sync write). -/
structure FS where
  files : String → FileEntry
  dirs : String → Bool
  writes : Nat

/-- Modelled from the spec: filepath.Dir (standard library, outside the
excerpt) maps a path to its parent directory; only its determinism matters
to the claims. -/
def parentDir (path : String) : String :=
  let parts := path.splitOn "/"
  if parts.length ≤ 1 then "." else String.intercalate "/" parts.dropLast

/-- The state of one preferences instance from src/app/preferences.go: the
in-memory map plus the lock-guarded flags loadingInProgress, suspendChange
and numSuspendedChanges, together with the file system it writes through.
The sequential model serialises the lock-protected sections. -/
structure PrefState where
  values : PrefMap
  loadingInProgress : Bool
  suspendChange : Bool
  numSuspendedChanges : Nat
  fs : FS

/-- src/app/preferences.go saveToFile: sets suspendChange (under the lock),
creates the parent directory, creates the file and encodes the full map into
it, counting one file write. The model does not inject MkdirAll or Create
failures, so the error result is always nil; the deferred resetSuspend runs
as a separate later step (it sleeps 100ms in a goroutine). -/
def saveToFile (s : PrefState) (path : String) : PrefState :=
  let s1 := { s with suspendChange := true }
  let s2 := { s1 with fs := { s1.fs with
    dirs := fun d => d = parentDir path || s1.fs.dirs d } }
  { s2 with fs := { s2.fs with
    files := fun p => if p = path then .present s2.values else s2.fs.files p,
    writes := s2.fs.writes + 1 } }

/-- The change listener installed by newPreferences (src/app/preferences.go
lines 139-155): under the lock it reads the two guards and increments the
pending counter when suspendChange holds; outside the lock it either
returns (guard active) or saves, with a save error only logged. -/
def changeListener (path : String) (s : PrefState) : PrefState :=
  let shouldIgnoreChange := s.suspendChange || s.loadingInProgress
  let s1 :=
    if s.suspendChange then
      { s with numSuspendedChanges := s.numSuspendedChanges + 1 }
    else s
  if shouldIgnoreChange then s1 else saveToFile s1 path

/-- src/app/preferences.go resetSuspend, the body that runs after the 100ms
sleep: clears suspendChange, zeroes the counter, and fires one synthetic
change notification when changes accumulated, which reaches the installed
change listener. -/
def resetSuspend (path : String) (s : PrefState) : PrefState :=
  let changes := s.numSuspendedChanges
  let s1 := { s with suspendChange := false, numSuspendedChanges := 0 }
  if changes > 0 then changeListener path s1 else s1

/-- src/app/preferences.go loadFromFile: an absent file creates the parent
directory and returns nil with the map untouched; any other open failure is
returned. A present file is decoded into the map between setting and
clearing loadingInProgress. Modelled from the spec: the decode step
(standard library json outside the excerpt) merges the document keys into
the existing map, and WriteValues fires one change notification to the
listener, synchronously, after the decode. -/
def loadFromFile (s : PrefState) (path : String) : PrefState × Except OpenErr Unit :=
  match s.fs.files path with
  | .absent =>
      ({ s with fs := { s.fs with
          dirs := fun d => d = parentDir path || s.fs.dirs d } }, .ok ())
  | .unreadable => (s, .error .permission)
  | .present doc =>
      let s1 := { s with loadingInProgress := true }
      let s2 := { s1 with values := fun k => (doc k).or (s1.values k) }
      let s3 := changeListener path s2
      ({ s3 with loadingInProgress := false }, .ok ())

end Prefs

end Fyne

open Fyne

-- Concrete inputs used by counterexamples and witnesses.

/-- A theme implementation that defines no color at all (Color always nil). -/
def nilTheme : Theme.GoTheme := fun _ _ => none

/-- The 2-row form of the spec example: (label, content) minimum heights
(10, 20) for row one and (30, 5) for row two, with plain (non-text) cells of
widths 7, 9, 8, 6. -/
def twoRowForm : List FormLayout.FObj :=
  [⟨true, false, ⟨7, 10⟩⟩, ⟨true, false, ⟨9, 20⟩⟩,
   ⟨true, false, ⟨8, 30⟩⟩, ⟨true, false, ⟨6, 5⟩⟩]

/-- An empty file system: no files, no directories, no writes yet. -/
def emptyFS : Prefs.FS := ⟨fun _ => .absent, fun _ => false, 0⟩

/-- A preferences state in the middle of loading (loadingInProgress set,
suspendChange clear, no pending changes). -/
def loadingState : Prefs.PrefState := ⟨fun _ => none, true, false, 0, emptyFS⟩

-- ---------------------------------------------------------------------------
-- Theorems
-- ---------------------------------------------------------------------------

theorem safeColorLookup_isSome (th : Theme.GoTheme) (n : String) (v : Theme.ThemeVariant) :
    (Theme.safeColorLookup th n v).isSome = true := by
  unfold Theme.safeColorLookup
  cases th n v <;> rfl

/-- C10: PrimaryColorNamed is total and never returns nil: every name other
than the seven switch cases (red, orange, yellow, green, purple, brown,
gray) yields the ColorBlue value 0x296ff6ff, and PrimaryForegroundColorNamed
yields the blue on-value colorLightBackground for every such name. -/
theorem theme_primary_color_named_default (name : String)
    (h : name ∉ ([Theme.ColorRed, Theme.ColorOrange, Theme.ColorYellow,
      Theme.ColorGreen, Theme.ColorPurple, Theme.ColorBrown, Theme.ColorGray] : List String)) :
    Theme.PrimaryColorNamed name = ⟨0x29, 0x6f, 0xf6, 0xff⟩ ∧
    Theme.PrimaryForegroundColorNamed name = Theme.colorLightBackground := by
  simp only [List.mem_cons, List.not_mem_nil, or_false, not_or] at h
  obtain ⟨h1, h2, h3, h4, h5, h6, h7⟩ := h
  unfold Theme.PrimaryColorNamed Theme.PrimaryForegroundColorNamed
  simp [h1, h2, h3, h4, h5, h6, h7]

theorem theme_primary_color_named_default_witness :
    ("blue" ∉ ([Theme.ColorRed, Theme.ColorOrange, Theme.ColorYellow,
      Theme.ColorGreen, Theme.ColorPurple, Theme.ColorBrown, Theme.ColorGray] : List String)) ∧
    (Theme.PrimaryColorNamed "blue" = ⟨0x29, 0x6f, 0xf6, 0xff⟩ ∧
      Theme.PrimaryForegroundColorNamed "blue" = Theme.colorLightBackground) :=
  ⟨by decide, theme_primary_color_named_default "blue" (by decide)⟩

/-- C6 counterexample: HeaderBackgroundColor bypasses safeColorLookup, so
with a theme whose Color method returns nil it returns nil rather than the
fixed fallback, refuting that no theme color accessor can return nil. -/
theorem theme_header_background_nil_cex :
    Theme.HeaderBackgroundColor nilTheme 0 = none ∧
    Theme.HeaderBackgroundColor nilTheme 0 ≠ some Theme.fallbackColor := by
  exact ⟨rfl, by simp [Theme.HeaderBackgroundColor, nilTheme]⟩

/-- C6 amended: every accessor that is routed through safeColorLookup never
returns nil (an undefined theme color is replaced by the fixed fallback),
but HeaderBackgroundColor, InputBackgroundColor and InputBorderColor call
the theme directly and pass a nil result through unchanged. -/
theorem theme_safe_lookup_fallback (th : Theme.GoTheme) (v : Theme.ThemeVariant) (name : String) :
    (Theme.safeColorLookup th name v).isSome = true ∧
    (Theme.Color th name v).isSome = true ∧
    (Theme.BackgroundColor th v).isSome = true ∧
    (Theme.ButtonColor th v).isSome = true ∧
    (Theme.DisabledButtonColor th v).isSome = true ∧
    (Theme.DisabledColor th v).isSome = true ∧
    (Theme.ErrorColor th v).isSome = true ∧
    (Theme.FocusColor th v).isSome = true ∧
    (Theme.ForegroundColor th v).isSome = true ∧
    (Theme.HoverColor th v).isSome = true ∧
    (Theme.HyperlinkColor th v).isSome = true ∧
    (Theme.MenuBackgroundColor th v).isSome = true ∧
    (Theme.OverlayBackgroundColor th v).isSome = true ∧
    (Theme.PlaceHolderColor th v).isSome = true ∧
    (Theme.PressedColor th v).isSome = true ∧
    (Theme.PrimaryColor th v).isSome = true ∧
    (Theme.ScrollBarColor th v).isSome = true ∧
    (Theme.SelectionColor th v).isSome = true ∧
    (Theme.SeparatorColor th v).isSome = true ∧
    (Theme.ShadowColor th v).isSome = true ∧
    (Theme.SuccessColor th v).isSome = true ∧
    (Theme.WarningColor th v).isSome = true ∧
    Theme.HeaderBackgroundColor th v = th "headerBackground" v ∧
    Theme.InputBackgroundColor th v = th "inputBackground" v ∧
    Theme.InputBorderColor th v = th "inputBorder" v := by
  refine ⟨safeColorLookup_isSome th name v, ?_⟩
  repeat' constructor
  all_goals first
    | exact safeColorLookup_isSome th _ v
    | rfl

/-- C2: countRows runs before the even-length guard of tableCellsSize and
evaluates the out-of-range index i+1 = len(objects) whenever the length is
odd and the final object is invisible: on the one-element invisible list the
whole size computation panics (none) instead of degenerating to a zero-size
result. -/
theorem formlayout_odd_invisible_index_panic :
    FormLayout.countRows [⟨false, false, ⟨3, 5⟩⟩] = none ∧
    FormLayout.tableCellsSize [⟨false, false, ⟨3, 5⟩⟩] 100 4 4 = none ∧
    FormLayout.MinSize [⟨false, false, ⟨3, 5⟩⟩] 4 4 = none ∧
    FormLayout.Layout [⟨false, false, ⟨3, 5⟩⟩] ⟨100, 100⟩ 4 4 = none := by
  refine ⟨rfl, rfl, rfl, rfl⟩

/-- C5 counterexample: on the 2-row form with (label, content) minimum
heights (10, 20) and (30, 5), with padding 4, MinSize height is
max(10,20) + max(30,5) + padding = 54, not the claimed 10 + 30 + padding
= 44. -/
theorem formlayout_minsize_two_rows_cex :
    FormLayout.MinSize twoRowForm 4 4 = some ⟨21, 54⟩ ∧
    ((54 : ℚ) ≠ 10 + 30 + 4) := by
  constructor
  · simp only [twoRowForm, FormLayout.MinSize, FormLayout.tableCellsSize,
      FormLayout.countRows, FormLayout.tableCellsLoop, FormLayout.minHeightLoop,
      FormLayout.formLayoutCols]
    norm_num [max_def, FormLayout.minHeightLoop]
    simp
  · norm_num

/-- C5 amended: for the 2-row form with row minimum heights (10, 20) and
(30, 5), MinSize returns total height max(10,20) + max(30,5) + padding =
20 + 30 + padding, each row height being the max of its label and content
minimum heights (the table rows have heights 20 and 30). -/
theorem formlayout_minsize_two_rows (p ip : ℚ) (hp : 0 ≤ p) :
    FormLayout.MinSize twoRowForm p ip = some ⟨8 + 9 + p, 20 + 30 + p⟩ ∧
    (FormLayout.tableCellsSize twoRowForm 0 p ip).map
        (fun acc => acc.2.2.map fun e => e.1.height) = some [20, 30] := by
  have hloop : FormLayout.tableCellsLoop ip twoRowForm =
      (8, 9, [(⟨7, 20⟩, ⟨9, 20⟩), (⟨8, 30⟩, ⟨6, 30⟩)]) := by
    simp only [twoRowForm, FormLayout.tableCellsLoop]
    norm_num [max_def]
  have hcount : FormLayout.countRows twoRowForm = some 2 := by
    simp [twoRowForm, FormLayout.countRows]
  have htcs : FormLayout.tableCellsSize twoRowForm 0 p ip =
      some (8, 9, [(⟨7, 20⟩, ⟨9, 20⟩), (⟨8, 30⟩, ⟨6, 30⟩)]) := by
    rw [FormLayout.tableCellsSize, hcount]
    simp only [Option.map_some']
    rw [if_neg (by simp [twoRowForm, FormLayout.formLayoutCols])]
    rw [hloop]
    dsimp only
    rw [max_eq_left (by linarith)]
  refine ⟨?_, by rw [htcs]; simp⟩
  rw [FormLayout.MinSize, htcs]
  simp only [Option.map_some']
  rw [if_neg (by simp)]
  simp only [FormLayout.minHeightLoop, Option.some.injEq, FormLayout.FSize.mk.injEq]
  norm_num
  ring

theorem formlayout_minsize_two_rows_witness :
    ((0 : ℚ) ≤ 4) ∧
    (FormLayout.MinSize twoRowForm 4 4 = some ⟨8 + 9 + 4, 20 + 30 + 4⟩ ∧
      (FormLayout.tableCellsSize twoRowForm 0 4 4).map
          (fun acc => acc.2.2.map fun e => e.1.height) = some [20, 30]) :=
  ⟨by norm_num, formlayout_minsize_two_rows 4 4 (by norm_num)⟩

-- Preferences helper lemmas.

theorem changeListener_suspended (path : String) (s : Prefs.PrefState)
    (h : s.suspendChange = true) :
    Prefs.changeListener path s =
      { s with numSuspendedChanges := s.numSuspendedChanges + 1 } := by
  unfold Prefs.changeListener
  rw [h]
  simp

theorem saveToFile_facts (s : Prefs.PrefState) (path : String) :
    (Prefs.saveToFile s path).fs.writes = s.fs.writes + 1 ∧
    (Prefs.saveToFile s path).suspendChange = true ∧
    (Prefs.saveToFile s path).numSuspendedChanges = s.numSuspendedChanges ∧
    (Prefs.saveToFile s path).values = s.values := by
  unfold Prefs.saveToFile
  exact ⟨rfl, rfl, rfl, rfl⟩

theorem iterate_changeListener_suspended (path : String) (N : Nat) :
    ∀ s : Prefs.PrefState, s.suspendChange = true →
      ((Prefs.changeListener path)^[N] s).fs = s.fs ∧
      ((Prefs.changeListener path)^[N] s).suspendChange = true ∧
      ((Prefs.changeListener path)^[N] s).numSuspendedChanges =
        s.numSuspendedChanges + N := by
  induction N with
  | zero => intro s h; exact ⟨rfl, h, rfl⟩
  | succ n ih =>
      intro s h
      rw [Function.iterate_succ_apply, changeListener_suspended path s h]
      obtain ⟨h1, h2, h3⟩ := ih { s with numSuspendedChanges := s.numSuspendedChanges + 1 } h
      refine ⟨h1, h2, ?_⟩
      rw [h3]
      show s.numSuspendedChanges + 1 + n = s.numSuspendedChanges + (n + 1)
      omega

/-- C1: one save followed by any number N of change notifications delivered
while the suspend guard is active performs exactly one file write in the
window: the save itself writes once and sets suspendChange, and every
subsequent notification is skipped by the listener, only incrementing the
pending-changes counter. -/
theorem prefs_debounce_window_single_write (path : String) (s : Prefs.PrefState) (N : Nat) :
    ((Prefs.changeListener path)^[N] (Prefs.saveToFile s path)).fs.writes =
      s.fs.writes + 1 ∧
    ((Prefs.changeListener path)^[N] (Prefs.saveToFile s path)).suspendChange = true ∧
    ((Prefs.changeListener path)^[N] (Prefs.saveToFile s path)).numSuspendedChanges =
      s.numSuspendedChanges + N := by
  obtain ⟨hw, hs, hn, _⟩ := saveToFile_facts s path
  obtain ⟨h1, h2, h3⟩ :=
    iterate_changeListener_suspended path N (Prefs.saveToFile s path) hs
  refine ⟨?_, h2, ?_⟩
  · rw [h1, hw]
  · rw [h3, hn]

/-- C3 counterexample: with loadingInProgress set and suspendChange clear the
listener skips the save (no file write) but does not increment the
pending-changes counter, contradicting the claim that either active guard
increments it. -/
theorem prefs_listener_loading_no_increment_cex :
    (Prefs.changeListener "cfg/p.json" loadingState).fs.writes =
      loadingState.fs.writes ∧
    (Prefs.changeListener "cfg/p.json" loadingState).numSuspendedChanges ≠
      loadingState.numSuspendedChanges + 1 := by
  constructor
  · rfl
  · intro h
    simp [Prefs.changeListener, loadingState] at h

/-- C3 amended: in the change listener, the save is skipped exactly when
suspendChange or loadingInProgress is active; the pending-changes counter is
incremented exactly when suspendChange is active (loadingInProgress alone
does not increment it); when neither guard is active a save is performed
(one file write) and the suspend guard is set. -/
theorem prefs_listener_guard_behavior (path : String) (s : Prefs.PrefState) :
    (Prefs.changeListener path s).fs.writes =
      (if s.suspendChange || s.loadingInProgress then s.fs.writes
        else s.fs.writes + 1) ∧
    (Prefs.changeListener path s).numSuspendedChanges =
      (if s.suspendChange then s.numSuspendedChanges + 1
        else s.numSuspendedChanges) ∧
    (Prefs.changeListener path s).suspendChange =
      (if s.suspendChange || s.loadingInProgress then s.suspendChange
        else true) := by
  unfold Prefs.changeListener Prefs.saveToFile
  rcases s with ⟨v, lp, sc, n, fs⟩
  cases sc <;> cases lp <;> simp

/-- C4: loading an existing file performs no file write: the change
notification fired by decoding into the map is handled while
loadingInProgress is set, so the listener skips the save; the flag is clear
again when loadFromFile returns and the result is nil. -/
theorem prefs_load_never_saves (s : Prefs.PrefState) (path : String)
    (doc : Prefs.PrefMap) (h : s.fs.files path = .present doc) :
    (Prefs.loadFromFile s path).1.fs = s.fs ∧
    (Prefs.loadFromFile s path).2 = .ok () ∧
    (Prefs.loadFromFile s path).1.loadingInProgress = false := by
  unfold Prefs.loadFromFile
  rw [h]
  unfold Prefs.changeListener
  rcases s with ⟨v, lp, sc, n, fs⟩
  cases sc <;> simp

/-- A file system holding one present preferences file, for the C4 witness. -/
def presentFS : Prefs.FS :=
  ⟨fun p => if p = "cfg/p.json" then .present (fun _ => none) else .absent,
    fun _ => false, 0⟩

/-- An idle preferences state whose backing file exists. -/
def presentState : Prefs.PrefState := ⟨fun _ => none, false, false, 0, presentFS⟩

theorem prefs_load_never_saves_witness :
    (Prefs.loadFromFile presentState "cfg/p.json").1.fs = presentState.fs ∧
    (Prefs.loadFromFile presentState "cfg/p.json").2 = .ok () ∧
    (Prefs.loadFromFile presentState "cfg/p.json").1.loadingInProgress = false :=
  prefs_load_never_saves presentState "cfg/p.json" (fun _ => none) (by
    show presentFS.files "cfg/p.json" = .present (fun _ => none)
    simp [presentFS])

/-- C7: saving the in-memory map to the backing file and then loading that
file back reproduces the same key-value map at every key, and the load
succeeds. The decode merges the persisted full-map document into the
in-memory map, which the save left equal to the document. -/
theorem prefs_save_load_roundtrip (s : Prefs.PrefState) (path k : String) :
    ((Prefs.loadFromFile (Prefs.saveToFile s path) path).1).values k =
      s.values k ∧
    (Prefs.loadFromFile (Prefs.saveToFile s path) path).2 = .ok () := by
  unfold Prefs.saveToFile Prefs.loadFromFile Prefs.changeListener
  simp only [if_pos rfl]
  simp

/-- C8: when the backing file is absent, loadFromFile creates the parent
directory, leaves the in-memory map untouched (so an initially empty map
stays empty), performs no write, and returns nil; any other open failure is
returned as an error with the state unchanged. -/
theorem prefs_load_missing_file (s : Prefs.PrefState) (path : String) :
    (s.fs.files path = .absent →
      (Prefs.loadFromFile s path).2 = .ok () ∧
      (Prefs.loadFromFile s path).1.values = s.values ∧
      (Prefs.loadFromFile s path).1.fs.dirs (Prefs.parentDir path) = true ∧
      (Prefs.loadFromFile s path).1.fs.writes = s.fs.writes) ∧
    (s.fs.files path = .unreadable →
      (Prefs.loadFromFile s path).2 = .error .permission ∧
      (Prefs.loadFromFile s path).1 = s) := by
  constructor <;> intro h <;> unfold Prefs.loadFromFile <;> rw [h] <;> simp

/-- A fresh, empty preferences state over an empty file system. -/
def freshState : Prefs.PrefState := ⟨fun _ => none, false, false, 0, emptyFS⟩

/-- A preferences state whose backing file exists but cannot be opened. -/
def unreadableState : Prefs.PrefState :=
  ⟨fun _ => none, false, false, 0, ⟨fun _ => .unreadable, fun _ => false, 0⟩⟩

theorem prefs_load_missing_file_witness :
    ((Prefs.loadFromFile freshState "cfg/p.json").2 = .ok () ∧
      (Prefs.loadFromFile freshState "cfg/p.json").1.values = freshState.values ∧
      (Prefs.loadFromFile freshState "cfg/p.json").1.fs.dirs
        (Prefs.parentDir "cfg/p.json") = true ∧
      (Prefs.loadFromFile freshState "cfg/p.json").1.fs.writes =
        freshState.fs.writes) ∧
    ((Prefs.loadFromFile unreadableState "cfg/p.json").2 = .error .permission ∧
      (Prefs.loadFromFile unreadableState "cfg/p.json").1 = unreadableState) :=
  ⟨(prefs_load_missing_file freshState "cfg/p.json").1 rfl,
    (prefs_load_missing_file unreadableState "cfg/p.json").2 rfl⟩

-- Form layout helper lemmas: removing a pair-aligned row whose two cells are
-- both invisible changes nothing in the size pass and shifts nothing in the
-- positioning pass.

theorem countRows_skip_pair (a b : FormLayout.FObj)
    (ha : a.visible = false) (hb : b.visible = false) :
    ∀ pre : List FormLayout.FObj, pre.length % 2 = 0 →
      ∀ post : List FormLayout.FObj,
      FormLayout.countRows (pre ++ a :: b :: post) =
        FormLayout.countRows (pre ++ post)
  | [], _, post => by
      cases hcp : FormLayout.countRows post <;>
        simp [FormLayout.countRows, ha, hb, hcp]
  | [_], h, post => by simp at h
  | x :: y :: pre, h, post => by
      have h2 : pre.length % 2 = 0 := by
        simp only [List.length_cons] at h
        omega
      have ih := countRows_skip_pair a b ha hb pre h2 post
      simp only [List.cons_append, FormLayout.countRows, List.append_eq]
      rw [ih]

theorem tableCellsLoop_skip_pair (ip : ℚ) (a b : FormLayout.FObj)
    (ha : a.visible = false) (hb : b.visible = false) :
    ∀ pre : List FormLayout.FObj, pre.length % 2 = 0 →
      ∀ post : List FormLayout.FObj,
      FormLayout.tableCellsLoop ip (pre ++ a :: b :: post) =
        FormLayout.tableCellsLoop ip (pre ++ post)
  | [], _, post => by simp [FormLayout.tableCellsLoop, ha, hb]
  | [_], h, post => by simp at h
  | x :: y :: pre, h, post => by
      have h2 : pre.length % 2 = 0 := by
        simp only [List.length_cons] at h
        omega
      have ih := tableCellsLoop_skip_pair ip a b ha hb pre h2 post
      simp only [List.cons_append, FormLayout.tableCellsLoop, List.append_eq]
      rw [ih]

theorem tableCellsSize_skip_pair (w p ip : ℚ) (a b : FormLayout.FObj)
    (ha : a.visible = false) (hb : b.visible = false)
    (pre post : List FormLayout.FObj)
    (hpre : pre.length % 2 = 0) (hpost : post.length % 2 = 0) :
    FormLayout.tableCellsSize (pre ++ a :: b :: post) w p ip =
      FormLayout.tableCellsSize (pre ++ post) w p ip := by
  unfold FormLayout.tableCellsSize
  rw [countRows_skip_pair a b ha hb pre hpre post]
  cases hc : FormLayout.countRows (pre ++ post) with
  | none => rfl
  | some rows =>
      simp only [Option.map_some']
      have hl1 : (pre ++ a :: b :: post).length % FormLayout.formLayoutCols = 0 := by
        simp only [List.length_append, List.length_cons, FormLayout.formLayoutCols]
        omega
      have hl2 : (pre ++ post).length % FormLayout.formLayoutCols = 0 := by
        simp only [List.length_append, FormLayout.formLayoutCols]
        omega
      rw [if_neg (by simpa using hl1), if_neg (by simpa using hl2)]
      rw [tableCellsLoop_skip_pair ip a b ha hb pre hpre post]

theorem minSize_skip_pair (p ip : ℚ) (a b : FormLayout.FObj)
    (ha : a.visible = false) (hb : b.visible = false)
    (pre post : List FormLayout.FObj)
    (hpre : pre.length % 2 = 0) (hpost : post.length % 2 = 0) :
    FormLayout.MinSize (pre ++ a :: b :: post) p ip =
      FormLayout.MinSize (pre ++ post) p ip := by
  unfold FormLayout.MinSize
  rw [tableCellsSize_skip_pair 0 p ip a b ha hb pre post hpre hpost]

theorem layoutLoop_skip_pair (lw cw p ip : ℚ) (a b : FormLayout.FObj)
    (ha : a.visible = false) (hb : b.visible = false) :
    ∀ pre : List FormLayout.FObj, pre.length % 2 = 0 →
      ∀ (post : List FormLayout.FObj) (tbl : List (FormLayout.FSize × FormLayout.FSize)) (y : ℚ),
      FormLayout.layoutLoop lw cw p ip (pre ++ a :: b :: post) tbl y =
        (FormLayout.layoutLoop lw cw p ip (pre ++ post) tbl y).map
          (fun r => r.take pre.length ++ none :: none :: r.drop pre.length)
  | [], _, post, tbl, y => by
      simp only [List.nil_append, List.length_nil, List.take_zero, List.drop_zero]
      simp only [FormLayout.layoutLoop, ha, hb]
      simp
  | [_], h, post, tbl, y => by simp at h
  | x :: z :: pre, h, post, tbl, y => by
      have h2 : pre.length % 2 = 0 := by
        simp only [List.length_cons] at h
        omega
      simp only [List.cons_append, List.length_cons]
      by_cases hxz : (!x.visible && !z.visible) = true
      · have ih := layoutLoop_skip_pair lw cw p ip a b ha hb pre h2 post tbl y
        simp only [FormLayout.layoutLoop, hxz, if_pos, ih]
        cases FormLayout.layoutLoop lw cw p ip (pre ++ post) tbl y <;> simp
      · cases tbl with
        | nil =>
            simp only [FormLayout.layoutLoop, hxz]
            simp
        | cons e tl =>
            have ih := layoutLoop_skip_pair lw cw p ip a b ha hb pre h2 post tl
              (y + e.1.height + p)
            simp only [FormLayout.layoutLoop, hxz, ih]
            cases FormLayout.layoutLoop lw cw p ip (pre ++ post) tl
              (y + e.1.height + p) <;> simp

/-- C9: for a pair-aligned row whose label and content cells are both
invisible, inserting it into an even-length object list changes neither the
row count, nor the table and column widths of the size pass, nor MinSize;
and Layout leaves both of its elements untouched (none) while positioning
every other element exactly as it would without the row. -/
theorem formlayout_invisible_pair_excluded
    (pre post : List FormLayout.FObj) (a b : FormLayout.FObj)
    (hpre : pre.length % 2 = 0) (hpost : post.length % 2 = 0)
    (ha : a.visible = false) (hb : b.visible = false)
    (w p ip : ℚ) (sz : FormLayout.FSize) :
    FormLayout.countRows (pre ++ a :: b :: post) =
      FormLayout.countRows (pre ++ post) ∧
    FormLayout.tableCellsSize (pre ++ a :: b :: post) w p ip =
      FormLayout.tableCellsSize (pre ++ post) w p ip ∧
    FormLayout.MinSize (pre ++ a :: b :: post) p ip =
      FormLayout.MinSize (pre ++ post) p ip ∧
    FormLayout.Layout (pre ++ a :: b :: post) sz p ip =
      (FormLayout.Layout (pre ++ post) sz p ip).map
        (fun r => r.take pre.length ++ none :: none :: r.drop pre.length) := by
  refine ⟨countRows_skip_pair a b ha hb pre hpre post,
    tableCellsSize_skip_pair w p ip a b ha hb pre post hpre hpost,
    minSize_skip_pair p ip a b ha hb pre post hpre hpost, ?_⟩
  unfold FormLayout.Layout
  rw [tableCellsSize_skip_pair sz.width p ip a b ha hb pre post hpre hpost]
  cases FormLayout.tableCellsSize (pre ++ post) sz.width p ip with
  | none => rfl
  | some acc =>
      simp only [Option.some_bind]
      exact layoutLoop_skip_pair acc.1 acc.2.1 p ip a b ha hb pre hpre post acc.2.2 0

/-- A visible non-text object of size 5 by 6. -/
def visObj : FormLayout.FObj := ⟨true, false, ⟨5, 6⟩⟩

/-- A visible non-text object of size 4 by 3. -/
def visObj2 : FormLayout.FObj := ⟨true, false, ⟨4, 3⟩⟩

/-- An invisible object. -/
def invObj : FormLayout.FObj := ⟨false, false, ⟨9, 9⟩⟩

theorem formlayout_invisible_pair_excluded_witness :
    FormLayout.countRows ([visObj, visObj2] ++ invObj :: invObj :: []) =
      FormLayout.countRows ([visObj, visObj2] ++ []) ∧
    FormLayout.tableCellsSize ([visObj, visObj2] ++ invObj :: invObj :: []) 100 4 4 =
      FormLayout.tableCellsSize ([visObj, visObj2] ++ []) 100 4 4 ∧
    FormLayout.MinSize ([visObj, visObj2] ++ invObj :: invObj :: []) 4 4 =
      FormLayout.MinSize ([visObj, visObj2] ++ []) 4 4 ∧
    FormLayout.Layout ([visObj, visObj2] ++ invObj :: invObj :: []) ⟨100, 100⟩ 4 4 =
      (FormLayout.Layout ([visObj, visObj2] ++ []) ⟨100, 100⟩ 4 4).map
        (fun r => r.take (List.length [visObj, visObj2]) ++
          none :: none :: r.drop (List.length [visObj, visObj2])) :=
  formlayout_invisible_pair_excluded [visObj, visObj2] [] invObj invObj
    rfl rfl rfl rfl 100 4 4 ⟨100, 100⟩
